import Mathlib

/-!
# Verification of the Dash0 MCP telemetry query engine

Shallow embedding of the telemetry query & normalization engine of the
Dash0 MCP server (Go): the HTTP client's response/error normalization
(`internal/client`), and the log and span query pipelines
(`api/logs/tools.go`, `api/spans/tools.go`).

Modelling conventions:
* Go `interface{}` values decoded by `encoding/json` are modelled by the
  inductive `Json` below; JSON numbers (Go `float64`) are modelled by `ℚ`.
* Go `map[string]interface{}` is modelled as an association list with
  first-match lookup (`lookupField`); `json.Unmarshal` produces maps with
  distinct keys, so the model agrees with the code on decoded payloads.
* Instants are modelled in whole minutes as `Int`; RFC3339 rendering is
  abstracted away (no claim inspects the rendered text).  Timestamp fields
  of flat records hold the parsed nanosecond instant as `Option Int`
  (`none` models Go's zero-valued `""` string).
* Go type assertions `v, ok := x.(T)` are modelled by the `Json.as*?`
  projections returning `Option`.
-/

namespace Dash0

/-- A decoded JSON value, as produced by Go `json.Unmarshal` into
`interface{}`: `null`, `bool`, `float64` (here `ℚ`), `string`,
`[]interface{}`, or `map[string]interface{}` (here an association list). -/
inductive Json : Type where
  | null : Json
  | bool (b : Bool) : Json
  | num (q : ℚ) : Json
  | str (s : String) : Json
  | arr (elems : List Json) : Json
  | obj (fields : List (String × Json)) : Json

/-- Lookup in a Go map modelled as an association list (first match). -/
def lookupField : List (String × Json) → String → Option Json
  | [], _ => none
  | (k, v) :: rest, key => if k = key then some v else lookupField rest key

/-- Go type assertion `.(string)`. -/
def Json.asStr? : Json → Option String
  | .str s => some s
  | _ => none

/-- Go type assertion `.(float64)`. -/
def Json.asNum? : Json → Option ℚ
  | .num q => some q
  | _ => none

/-- Go type assertion `.(bool)`. -/
def Json.asBool? : Json → Option Bool
  | .bool b => some b
  | _ => none

/-- Go type assertion `.([]interface{})`. -/
def Json.asArr? : Json → Option (List Json)
  | .arr xs => some xs
  | _ => none

/-- Go type assertion `.(map[string]interface{})`. -/
def Json.asObj? : Json → Option (List (String × Json))
  | .obj m => some m
  | _ => none

/-! ## internal/client: error-detail extraction (`extractErrorDetail`) -/

/-- The body of the `switch val := v.(type)` in `extractErrorDetail`:
given the value found under one of the candidate keys, return the detail
string it yields, if any.  A `string` is returned as is; a non-empty array
yields its first element when that is a string, or the `detail` (then
`message`) string of an object first element; an object yields its
`detail` (then `message`) string.  Every other shape yields nothing and
the scan moves to the next key. -/
def checkErrVal : Json → Option String
  | .str s => some s
  | .arr vs =>
    match vs with
    | [] => none
    | v0 :: _ =>
      match v0 with
      | .str s => some s
      | .obj em =>
        match (lookupField em "detail").bind Json.asStr? with
        | some d => some d
        | none => (lookupField em "message").bind Json.asStr?
      | _ => none
  | .obj em =>
    match (lookupField em "detail").bind Json.asStr? with
    | some d => some d
    | none => (lookupField em "message").bind Json.asStr?
  | _ => none

/-- The key loop of `extractErrorDetail`: try each candidate key in order;
a key that is absent, or present with a value of an unproductive shape,
is skipped. -/
def extractFromKeys (m : List (String × Json)) : List String → String
  | [] => ""
  | k :: ks =>
    match lookupField m k with
    | some v =>
      match checkErrVal v with
      | some s => s
      | none => extractFromKeys m ks
    | none => extractFromKeys m ks

/-- Function `extractErrorDetail` (internal/client/client.go): best-effort detail
extraction from a JSON error body.  The Go code iterates the literal key
slice `["error", "message", "detail", "errors"]` in that order. -/
def extractErrorDetail (result : Json) : String :=
  match result with
  | .obj m => extractFromKeys m ["error", "message", "detail", "errors"]
  | _ => ""

/-! ## internal/client: response processing in `Request` -/

/-- Structure `APIError` (internal/client/client.go). -/
structure APIError : Type where
  statusCode : Nat
  title : String
  detail : String
  deriving DecidableEq

/-- Structure `ToolResult` (internal/client/client.go); `data` is the decoded JSON
payload (`Json.null` models the Go nil interface). -/
structure ToolResult : Type where
  success : Bool
  data : Json
  error : Option APIError

/-- The payload value computed by `Request` from the raw response body:
an empty body yields nil; a non-empty body yields the unmarshalled JSON
when unmarshalling succeeds, and otherwise falls back to the raw body as
a string.  `parsed` is the outcome of `json.Unmarshal` on `raw`. -/
def responseBody (raw : String) (parsed : Option Json) : Json :=
  if raw = "" then .null
  else
    match parsed with
    | some j => j
    | none => .str raw

/-- The tail of `Client.Request` (internal/client/client.go, after the body
has been read): build the `ToolResult` from the HTTP status code, the
status text (`resp.Status`), the raw body and the unmarshal outcome.
A status of 400 or above yields an error result carrying the status code,
status text and extracted detail, with the payload still attached;
anything below 400 yields a success result. -/
def processResponse (statusCode : Nat) (statusText : String)
    (raw : String) (parsed : Option Json) : ToolResult :=
  let result := responseBody raw parsed
  if statusCode ≥ 400 then
    { success := false
      data := result
      error := some { statusCode := statusCode, title := statusText
                      detail := extractErrorDetail result } }
  else
    { success := true, data := result, error := none }

/-! ## Shared helpers for the two query handlers -/

/-- Tool arguments: the `map[string]interface{}` passed to a handler. -/
abbrev Args : Type := List (String × Json)

/-- Read `args[k].(string)` with its ok flag. -/
def getStr (args : Args) (k : String) : Option String :=
  (lookupField args k).bind Json.asStr?

/-- Read `args[k].(float64)` with its ok flag. -/
def getNum (args : Args) (k : String) : Option ℚ :=
  (lookupField args k).bind Json.asNum?

/-- Read `args[k].(bool)` with its ok flag. -/
def getBool (args : Args) (k : String) : Option Bool :=
  (lookupField args k).bind Json.asBool?

/-- Go `int(f)` on a `float64`: truncation toward zero.  `Int.tdiv` is
T-division, so dividing the reduced numerator by the denominator
truncates toward zero. -/
def truncRat (q : ℚ) : Int :=
  q.num.tdiv (q.den : Int)

/-- Model of `strconv.ParseInt(s, 10, 64)` returning `none` on any error
(empty input, stray characters, or 64-bit overflow).  Accepts an optional
leading sign followed by at least one decimal digit. -/
def parseDigits : List Char → Option Nat
  | [] => none
  | cs =>
    cs.foldl (fun acc c =>
      match acc with
      | none => none
      | some n => if c.isDigit then some (n * 10 + (c.toNat - '0'.toNat)) else none)
      (some 0)

/-- See `parseDigits`; handles the sign and the int64 range check. -/
def parseInt64 (s : String) : Option Int :=
  match s.data with
  | '+' :: rest =>
    match parseDigits rest with
    | some n => if (n : Int) ≤ 2 ^ 63 - 1 then some (n : Int) else none
    | none => none
  | '-' :: rest =>
    match parseDigits rest with
    | some n => if (n : Int) ≤ 2 ^ 63 then some (-(n : Int)) else none
    | none => none
  | cs =>
    match parseDigits cs with
    | some n => if (n : Int) ≤ 2 ^ 63 - 1 then some (n : Int) else none
    | none => none

/-- Structure `AttributeFilterValue` (api/spans/tools.go and api/logs/tools.go declare
the same type): exactly the populated variants of the upstream value.
`intValue` is a decimal string, per the upstream convention. -/
structure AttributeFilterValue : Type where
  stringValue : Option String
  intValue : Option String
  boolValue : Option Bool
  deriving DecidableEq

/-- Structure `AttributeFilter` (identical in both packages). -/
structure AttributeFilter : Type where
  key : String
  operator : String
  value : Option AttributeFilterValue
  deriving DecidableEq

/-- The time-range computation shared verbatim by `QuerySpansHandler` and
`QueryLogsHandler`: minutes default to 60 when `time_range_minutes` is
absent, mistyped, or not positive; a positive value is converted with
Go's `int(...)` truncation and then capped at 1440. -/
def calcMinutes (args : Args) : Int :=
  match getNum args "time_range_minutes" with
  | some m =>
    if m > 0 then
      let minutes := truncRat m
      if minutes > 1440 then 1440 else minutes
    else 60
  | none => 60

/-- A query time window, instants measured in minutes. -/
structure TimeWindow : Type where
  fromTime : Int
  toTime : Int
  deriving DecidableEq

/-- Window `from := now.Add(-minutes)`, `to := now`, with `now` sampled once. -/
def queryWindow (now : Int) (args : Args) : TimeWindow :=
  { fromTime := now - calcMinutes args, toTime := now }

/-- The limit computation of `QuerySpansHandler`: default 100; a positive
`limit` argument is truncated to an integer and capped at 200. -/
def calcSpanLimit (args : Args) : Int :=
  match getNum args "limit" with
  | some l =>
    if l > 0 then
      let limit := truncRat l
      if limit > 200 then 200 else limit
    else 100
  | none => 100

/-- The limit computation of `QueryLogsHandler`: default 100; a positive
`limit` argument is truncated to an integer and capped at 500. -/
def calcLogLimit (args : Args) : Int :=
  match getNum args "limit" with
  | some l =>
    if l > 0 then
      let limit := truncRat l
      if limit > 500 then 500 else limit
    else 100
  | none => 100

/-! ## Filter translation -/

/-- The filter-building prelude of `QuerySpansHandler` (api/spans/tools.go):
an accumulating append per parameter, in source order — service name,
HTTP method, HTTP status code, span name, errors-only.  Note that the
status-code branch has no non-zero guard: any numeric `http_status_code`
argument, zero included, emits a filter. -/
def buildSpanFilters (args : Args) : List AttributeFilter :=
  let filters : List AttributeFilter := []
  let filters :=
    match getStr args "service_name" with
    | some serviceName =>
      if serviceName ≠ "" then
        filters ++ [{ key := "service.name", operator := "is"
                      value := some { stringValue := some serviceName
                                      intValue := none, boolValue := none } }]
      else filters
    | none => filters
  let filters :=
    match getStr args "http_method" with
    | some httpMethod =>
      if httpMethod ≠ "" then
        filters ++ [{ key := "http.request.method", operator := "is"
                      value := some { stringValue := some httpMethod
                                      intValue := none, boolValue := none } }]
      else filters
    | none => filters
  let filters :=
    match getNum args "http_status_code" with
    | some statusCode =>
      filters ++ [{ key := "http.response.status_code", operator := "is"
                    value := some { stringValue := none
                                    intValue := some (toString (truncRat statusCode))
                                    boolValue := none } }]
    | none => filters
  let filters :=
    match getStr args "span_name" with
    | some spanName =>
      if spanName ≠ "" then
        filters ++ [{ key := "name", operator := "is"
                      value := some { stringValue := some spanName
                                      intValue := none, boolValue := none } }]
      else filters
    | none => filters
  let filters :=
    match getBool args "error_only" with
    | some errorOnly =>
      if errorOnly then
        filters ++ [{ key := "status.code", operator := "is"
                      value := some { stringValue := none, intValue := some "2"
                                      boolValue := none } }]
      else filters
    | none => filters
  filters

/-- The filter-building prelude of `QueryLogsHandler` (api/logs/tools.go):
only the service name is translated upstream. -/
def buildLogFilters (args : Args) : List AttributeFilter :=
  let filters : List AttributeFilter := []
  let filters :=
    match getStr args "service_name" with
    | some serviceName =>
      if serviceName ≠ "" then
        filters ++ [{ key := "service.name", operator := "is"
                      value := some { stringValue := some serviceName
                                      intValue := none, boolValue := none } }]
      else filters
    | none => filters
  filters

/-! ## Hierarchy flattening -/

/-- Structure `FlatSpan` (api/spans/tools.go).  `startTimeNano`/`endTimeNano` model
the parsed instants behind the RFC3339Nano-rendered `StartTime`/`EndTime`
strings; `none` models Go's zero value `""`. -/
structure FlatSpan : Type where
  traceId : String
  spanId : String
  parentSpanId : String
  name : String
  serviceName : String
  durationMs : ℚ
  startTimeNano : Option Int
  endTimeNano : Option Int
  statusCode : Int
  statusMessage : String
  attributes : List (String × Json)

/-- Structure `FlatLog` (api/logs/tools.go).  `timestampNano` models the parsed
instant behind the rendered `Timestamp` string. -/
structure FlatLog : Type where
  timestampNano : Option Int
  serviceName : String
  severityText : String
  severityNumber : Int
  body : String
  traceId : String
  spanId : String
  attributes : List (String × Json)

/-- Insertion into a Go map built by assignment (`result[key] = v`):
a later assignment to the same key overwrites the earlier one. -/
def mapInsert (m : List (String × Json)) (k : String) (v : Json) :
    List (String × Json) :=
  m.filter (fun p => p.1 ≠ k) ++ [(k, v)]

/-- One iteration of the attribute loop of `extractServiceName`: the value
this attribute entry contributes, if any.  An entry that is not an object,
whose `key` is absent, mistyped, or different from `service.name`, or
whose `value` is not an object with a string `stringValue`, contributes
nothing and the loop continues. -/
def attrServiceName (attr : Json) : Option String :=
  match attr.asObj? with
  | none => none
  | some attrMap =>
    match (lookupField attrMap "key").bind Json.asStr? with
    | some key =>
      if key = "service.name" then
        ((lookupField attrMap "value").bind Json.asObj?).bind
          (fun value => (lookupField value "stringValue").bind Json.asStr?)
      else none
    | none => none

/-- The attribute loop of `extractServiceName`, written as the Go `for`
with `continue`: return the first productive entry's string, or `""`. -/
def serviceNameLoop : List Json → String
  | [] => ""
  | attr :: rest =>
    match attrServiceName attr with
    | some s => s
    | none => serviceNameLoop rest

/-- The `resource.attributes` array of a resource group, when present and
well-shaped (the two guarded projections at the head of
`extractServiceName`). -/
def resourceAttrs (rsMap : List (String × Json)) : Option (List Json) :=
  ((lookupField rsMap "resource").bind Json.asObj?).bind
    (fun resource => (lookupField resource "attributes").bind Json.asArr?)

/-- Function `extractServiceName` (identical in api/spans/tools.go and
api/logs/tools.go): scan the resource attribute list for a well-formed
`service.name` entry and return its string value, else `""`. -/
def extractServiceName (rsMap : List (String × Json)) : String :=
  match (lookupField rsMap "resource").bind Json.asObj? with
  | none => ""
  | some resource =>
    match (lookupField resource "attributes").bind Json.asArr? with
    | none => ""
    | some attrs => serviceNameLoop attrs

/-- First-present-wins value resolution shared by both attribute
extractors: `stringValue` as a string, else `intValue` as a string (kept
only when it parses as a 64-bit integer; an unparsable `intValue` string
short-circuits the chain and contributes nothing), else `boolValue` as a
bool. -/
def resolveAttrValue (value : List (String × Json)) : Option Json :=
  match (lookupField value "stringValue").bind Json.asStr? with
  | some s => some (.str s)
  | none =>
    match (lookupField value "intValue").bind Json.asStr? with
    | some intStr =>
      match parseInt64 intStr with
      | some i => some (.num (i : ℚ))
      | none => none
    | none =>
      match (lookupField value "boolValue").bind Json.asBool? with
      | some b => some (.bool b)
      | none => none

/-- The allow-list of `extractSpanAttributes`. -/
def interestingKeys : List String :=
  ["http.request.method", "http.response.status_code", "http.route",
   "http.url", "http.target", "db.system", "db.statement", "rpc.method",
   "rpc.service", "messaging.system", "messaging.operation", "error.type",
   "exception.type", "exception.message"]

/-- The attribute loop shared by `extractSpanAttributes` and
`extractLogAttributes`, parameterized by the key predicate (the span
extractor keeps only `interestingKeys`; the log extractor keeps every
key). -/
def extractAttrsLoop (keep : String → Bool) :
    List Json → List (String × Json) → List (String × Json)
  | [], result => result
  | attr :: rest, result =>
    match attr.asObj? with
    | none => extractAttrsLoop keep rest result
    | some attrMap =>
      match (lookupField attrMap "key").bind Json.asStr? with
      | none => extractAttrsLoop keep rest result
      | some key =>
        if keep key then
          match (lookupField attrMap "value").bind Json.asObj? with
          | none => extractAttrsLoop keep rest result
          | some value =>
            match resolveAttrValue value with
            | some v => extractAttrsLoop keep rest (mapInsert result key v)
            | none => extractAttrsLoop keep rest result
        else extractAttrsLoop keep rest result

/-- Function `extractSpanAttributes` (api/spans/tools.go). -/
def extractSpanAttributes (spanMap : List (String × Json)) :
    List (String × Json) :=
  match (lookupField spanMap "attributes").bind Json.asArr? with
  | none => []
  | some attrs => extractAttrsLoop (fun k => interestingKeys.contains k) attrs []

/-- Function `extractLogAttributes` (api/logs/tools.go). -/
def extractLogAttributes (logMap : List (String × Json)) :
    List (String × Json) :=
  match (lookupField logMap "attributes").bind Json.asArr? with
  | none => []
  | some attrs => extractAttrsLoop (fun _ => true) attrs []

/-- The leaf-record extraction of `flattenSpansResponse`: build one
`FlatSpan` from a span object, inheriting the resource's service name.
Every field access degrades to the field's zero value on a missing or
mistyped field; duration and the two instants are set only when both
nanosecond strings are present and parse. -/
def spanFromJson (serviceName : String) (spanMap : List (String × Json)) :
    FlatSpan :=
  let times : ℚ × Option Int × Option Int :=
    match (lookupField spanMap "startTimeUnixNano").bind Json.asStr? with
    | some startNanoStr =>
      match (lookupField spanMap "endTimeUnixNano").bind Json.asStr? with
      | some endNanoStr =>
        match parseInt64 startNanoStr, parseInt64 endNanoStr with
        | some startNano, some endNano =>
          (((endNano - startNano : Int) : ℚ) / 1000000, some startNano, some endNano)
        | _, _ => (0, none, none)
      | none => (0, none, none)
    | none => (0, none, none)
  let status : Int × String :=
    match (lookupField spanMap "status").bind Json.asObj? with
    | some statusMap =>
      (((lookupField statusMap "code").bind Json.asNum?).elim 0 truncRat,
       ((lookupField statusMap "message").bind Json.asStr?).getD "")
    | none => (0, "")
  { traceId := ((lookupField spanMap "traceId").bind Json.asStr?).getD ""
    spanId := ((lookupField spanMap "spanId").bind Json.asStr?).getD ""
    parentSpanId := ((lookupField spanMap "parentSpanId").bind Json.asStr?).getD ""
    name := ((lookupField spanMap "name").bind Json.asStr?).getD ""
    serviceName := serviceName
    durationMs := times.1
    startTimeNano := times.2.1
    endTimeNano := times.2.2
    statusCode := status.1
    statusMessage := status.2
    attributes := extractSpanAttributes spanMap }

/-- The scope-group level of `flattenSpansResponse`: a scope group that is
not an object, or whose `spans` field is absent or not an array,
contributes no records. -/
def spansOfScope (serviceName : String) (ss : Json) : List FlatSpan :=
  match ss.asObj? with
  | none => []
  | some ssMap =>
    match (lookupField ssMap "spans").bind Json.asArr? with
    | none => []
    | some spanList =>
      spanList.filterMap (fun s => (s.asObj?).map (spanFromJson serviceName))

/-- The resource-group level of `flattenSpansResponse`. -/
def spansOfResource (rs : Json) : List FlatSpan :=
  match rs.asObj? with
  | none => []
  | some rsMap =>
    let serviceName := extractServiceName rsMap
    match (lookupField rsMap "scopeSpans").bind Json.asArr? with
    | none => []
    | some scopeSpans => (scopeSpans.map (spansOfScope serviceName)).flatten

/-- Function `flattenSpansResponse` (api/spans/tools.go): walk
resourceSpans → scopeSpans → spans and emit one flat record per leaf
span, in the payload's order. -/
def flattenSpansResponse (data : Json) : List FlatSpan :=
  match data.asObj? with
  | none => []
  | some dataMap =>
    match (lookupField dataMap "resourceSpans").bind Json.asArr? with
    | none => []
    | some resourceSpans => (resourceSpans.map spansOfResource).flatten

/-- The leaf-record extraction of `flattenLogsResponse`.  The timestamp
comes from `timeUnixNano` when that field is a string (even if it then
fails to parse — `observedTimeUnixNano` is consulted only when
`timeUnixNano` is absent or not a string). -/
def logFromJson (serviceName : String) (logMap : List (String × Json)) :
    FlatLog :=
  let timestamp : Option Int :=
    match (lookupField logMap "timeUnixNano").bind Json.asStr? with
    | some timeNanoStr => parseInt64 timeNanoStr
    | none =>
      match (lookupField logMap "observedTimeUnixNano").bind Json.asStr? with
      | some observedTimeStr => parseInt64 observedTimeStr
      | none => none
  { timestampNano := timestamp
    serviceName := serviceName
    severityText := ((lookupField logMap "severityText").bind Json.asStr?).getD ""
    severityNumber := ((lookupField logMap "severityNumber").bind Json.asNum?).elim 0 truncRat
    body := (((lookupField logMap "body").bind Json.asObj?).bind
      (fun body => (lookupField body "stringValue").bind Json.asStr?)).getD ""
    traceId := ((lookupField logMap "traceId").bind Json.asStr?).getD ""
    spanId := ((lookupField logMap "spanId").bind Json.asStr?).getD ""
    attributes := extractLogAttributes logMap }

/-- The scope-group level of `flattenLogsResponse`. -/
def logsOfScope (serviceName : String) (sl : Json) : List FlatLog :=
  match sl.asObj? with
  | none => []
  | some slMap =>
    match (lookupField slMap "logRecords").bind Json.asArr? with
    | none => []
    | some logRecords =>
      logRecords.filterMap (fun lr => (lr.asObj?).map (logFromJson serviceName))

/-- The resource-group level of `flattenLogsResponse`. -/
def logsOfResource (rl : Json) : List FlatLog :=
  match rl.asObj? with
  | none => []
  | some rlMap =>
    let serviceName := extractServiceName rlMap
    match (lookupField rlMap "scopeLogs").bind Json.asArr? with
    | none => []
    | some scopeLogs => (scopeLogs.map (logsOfScope serviceName)).flatten

/-- Function `flattenLogsResponse` (api/logs/tools.go). -/
def flattenLogsResponse (data : Json) : List FlatLog :=
  match data.asObj? with
  | none => []
  | some dataMap =>
    match (lookupField dataMap "resourceLogs").bind Json.asArr? with
    | none => []
    | some resourceLogs => (resourceLogs.map logsOfResource).flatten

/-! ## Post-filters, limiting, and envelopes -/

/-- ASCII lowercasing of one character (the fragment of Go
`strings.ToLower` exercised here). -/
def lowerChar (c : Char) : Char :=
  if 'A' ≤ c ∧ c ≤ 'Z' then Char.ofNat (c.toNat + 32) else c

/-- Model of Go `strings.ToLower`. -/
def toLowerStr (s : String) : String :=
  String.mk (s.data.map lowerChar)

/-- Does the haystack start with the needle? -/
def listStartsWith : List Char → List Char → Bool
  | [], _ => true
  | _ :: _, [] => false
  | p :: ps, c :: cs => p = c && listStartsWith ps cs

/-- Does the needle occur at some position of the haystack? -/
def listContainsAt (pat : List Char) : List Char → Bool
  | [] => listStartsWith pat []
  | c :: cs => listStartsWith pat (c :: cs) || listContainsAt pat cs

/-- Model of Go `strings.Contains s sub`. -/
def strContains (s sub : String) : Bool :=
  listContainsAt sub.data s.data

/-- The case-insensitive body test of `QueryLogsHandler`:
`strings.Contains(strings.ToLower(body), strings.ToLower(sub))`. -/
def containsCI (body sub : String) : Bool :=
  strContains (toLowerStr body) (toLowerStr sub)

/-- Table `severityOrder` (api/logs/tools.go): the fixed severity ranks; a Go
map read of a missing key yields the zero value 0. -/
def severityOrder (s : String) : Int :=
  if s = "TRACE" then 1
  else if s = "DEBUG" then 5
  else if s = "INFO" then 9
  else if s = "WARN" then 13
  else if s = "ERROR" then 17
  else if s = "FATAL" then 21
  else 0

/-- The client-side duration filter of `QuerySpansHandler`: applied only
when `min_duration_ms` is a positive number. -/
def minDurationFilter (args : Args) (spans : List FlatSpan) : List FlatSpan :=
  match getNum args "min_duration_ms" with
  | some minDuration =>
    if minDuration > 0 then
      spans.filter (fun span => decide (span.durationMs ≥ minDuration))
    else spans
  | none => spans

/-- The client-side severity filter of `QueryLogsHandler`: applied only
when `min_severity` is a non-empty string. -/
def severityFilter (args : Args) (logs : List FlatLog) : List FlatLog :=
  match getStr args "min_severity" with
  | some minSeverity =>
    if minSeverity ≠ "" then
      logs.filter (fun log => decide (log.severityNumber ≥ severityOrder minSeverity))
    else logs
  | none => logs

/-- The client-side body filter of `QueryLogsHandler`: applied only when
`body_contains` is a non-empty string. -/
def bodyFilter (args : Args) (logs : List FlatLog) : List FlatLog :=
  match getStr args "body_contains" with
  | some bodyContains =>
    if bodyContains ≠ "" then
      logs.filter (fun log => containsCI log.body bodyContains)
    else logs
  | none => logs

/-- The final truncation of `QueryLogsHandler`:
`if len(flatLogs) > limit { flatLogs = flatLogs[:limit] }`. -/
def applyLimit (limit : Int) (logs : List FlatLog) : List FlatLog :=
  if (logs.length : Int) > limit then logs.take limit.toNat else logs

/-- The envelope built by `QuerySpansHandler` on success. -/
structure SpanEnvelope : Type where
  spans : List FlatSpan
  count : Nat
  filters : List AttributeFilter
  limit : Int

/-- The envelope built by `QueryLogsHandler` on success. -/
structure LogEnvelope : Type where
  logs : List FlatLog
  count : Nat
  filters : List AttributeFilter
  limit : Int

/-- The pagination limit `QuerySpansHandler` sends upstream: the clamped
caller limit itself. -/
def spansPaginationLimit (args : Args) : Int :=
  calcSpanLimit args

/-- The pagination limit `QueryLogsHandler` sends upstream: twice the
clamped caller limit («fetch extra for client-side filtering»). -/
def logsPaginationLimit (args : Args) : Int :=
  calcLogLimit args * 2

/-- The post-transport part of `QuerySpansHandler` as a pure function of
the arguments and the upstream success payload: flatten, apply the
duration filter, and assemble the envelope.  There is no truncation step
between the filter and the envelope. -/
def querySpansEnvelope (args : Args) (data : Json) : SpanEnvelope :=
  let flatSpans := minDurationFilter args (flattenSpansResponse data)
  { spans := flatSpans
    count := flatSpans.length
    filters := buildSpanFilters args
    limit := calcSpanLimit args }

/-- The post-transport part of `QueryLogsHandler` as a pure function of
the arguments and the upstream success payload: flatten, apply the
severity filter then the body filter, truncate to the limit, and
assemble the envelope. -/
def queryLogsEnvelope (args : Args) (data : Json) : LogEnvelope :=
  let limit := calcLogLimit args
  let flatLogs :=
    applyLimit limit (bodyFilter args (severityFilter args (flattenLogsResponse data)))
  { logs := flatLogs
    count := flatLogs.length
    filters := buildLogFilters args
    limit := limit }

/-! ## Theorems -/

/-- The key loop of `extractErrorDetail` returns the first key whose value
yields a detail string, with `""` when no key does. -/
lemma extractFromKeys_eq_findSome (m : List (String × Json)) (ks : List String) :
    extractFromKeys m ks =
      (ks.findSome? fun k => (lookupField m k).bind checkErrVal).getD "" := by
  induction ks with
  | nil => rfl
  | cons k ks ih =>
    simp only [extractFromKeys, List.findSome?]
    cases h : lookupField m k with
    | none => simpa using ih
    | some v =>
      cases hv : checkErrVal v with
      | none => simpa [hv] using ih
      | some s => simp [hv]

/-- C1, counterexample.  The claim states that a body containing both a
top-level `detail` string and a top-level `error` string yields the
`detail` string; `extractErrorDetail` returns the `error` string on such
a body, because its key loop tries `error` before `detail`. -/
theorem C1_counterexample :
    extractErrorDetail
        (Json.obj [("detail", Json.str "the detail"), ("error", Json.str "the error")]) =
      "the error"
    ∧ "the error" ≠ "the detail" := by
  exact ⟨rfl, by decide⟩

/-- C1, amended.  The detail returned by `extractErrorDetail` is the first
match in the priority order `error`, `message`, `detail`, `errors` (each
key's value inspected by `checkErrVal`: a string directly; a nested
object checked for `detail` then `message`; an array whose first element
is a string or an object checked for `detail`/`message`), with `""` when
no key matches; in particular, a body containing both a top-level
`detail` string and a top-level `error` string yields the `error`
string. -/
theorem C1_extractErrorDetail_priority :
    (∀ m : List (String × Json),
        extractErrorDetail (Json.obj m) =
          (["error", "message", "detail", "errors"].findSome?
            fun k => (lookupField m k).bind checkErrVal).getD "")
    ∧ (∀ (m : List (String × Json)) (d e : String),
        lookupField m "detail" = some (Json.str d) →
        lookupField m "error" = some (Json.str e) →
        extractErrorDetail (Json.obj m) = e) := by
  constructor
  · intro m
    exact extractFromKeys_eq_findSome m _
  · intro m d e _ he
    have h1 := extractFromKeys_eq_findSome m ["error", "message", "detail", "errors"]
    simp only [List.findSome?, he] at h1
    simpa [extractErrorDetail, checkErrVal] using h1

/-- C1, witness: the amended theorem applied to a concrete body. -/
theorem C1_witness :
    lookupField [("detail", Json.str "D"), ("error", Json.str "E")] "detail" =
        some (Json.str "D")
    ∧ lookupField [("detail", Json.str "D"), ("error", Json.str "E")] "error" =
        some (Json.str "E")
    ∧ extractErrorDetail (Json.obj [("detail", Json.str "D"), ("error", Json.str "E")]) = "E" :=
  ⟨rfl, rfl, C1_extractErrorDetail_priority.2 _ "D" "E" rfl rfl⟩

/-! ### Filter translation (C3, C4) -/

/-- The translated service-name predicate. -/
def svcNameFilter (s : String) : AttributeFilter :=
  { key := "service.name", operator := "is"
    value := some { stringValue := some s, intValue := none, boolValue := none } }

/-- The translated HTTP-method predicate. -/
def httpMethodFilter (s : String) : AttributeFilter :=
  { key := "http.request.method", operator := "is"
    value := some { stringValue := some s, intValue := none, boolValue := none } }

/-- The translated HTTP-status-code predicate. -/
def statusCodeFilter (code : ℚ) : AttributeFilter :=
  { key := "http.response.status_code", operator := "is"
    value := some { stringValue := none, intValue := some (toString (truncRat code))
                    boolValue := none } }

/-- The translated span-name predicate. -/
def spanNameFilter (s : String) : AttributeFilter :=
  { key := "name", operator := "is"
    value := some { stringValue := some s, intValue := none, boolValue := none } }

/-- The translated errors-only predicate: `status.code` equals 2. -/
def errorOnlyFilter : AttributeFilter :=
  { key := "status.code", operator := "is"
    value := some { stringValue := none, intValue := some "2", boolValue := none } }

/-- Emission of one optional string-valued parameter: one filter when the
parameter is present and non-empty, nothing otherwise. -/
def emitStr (o : Option String) (mk : String → AttributeFilter) :
    List AttributeFilter :=
  match o with
  | some s => if s ≠ "" then [mk s] else []
  | none => []

/-- Modelled from the spec's words (§4.2, as amended): the span filter
list is the concatenation, in the canonical parameter order, of one
filter per satisfied parameter — service name, HTTP method and span name
when present and non-empty, HTTP status code whenever present as a
number (zero included), errors-only when `true`. -/
def buildSpanFiltersSpec (args : Args) : List AttributeFilter :=
  emitStr (getStr args "service_name") svcNameFilter
    ++ emitStr (getStr args "http_method") httpMethodFilter
    ++ (match getNum args "http_status_code" with
        | some code => [statusCodeFilter code]
        | none => [])
    ++ emitStr (getStr args "span_name") spanNameFilter
    ++ (if getBool args "error_only" = some true then [errorOnlyFilter] else [])

/-- Modelled from the spec's words (§4.2): the log filter list holds only
the service-name predicate, when present and non-empty. -/
def buildLogFiltersSpec (args : Args) : List AttributeFilter :=
  emitStr (getStr args "service_name") svcNameFilter

/-- The accumulating filter build of `QuerySpansHandler` equals the
canonical concatenation. -/
lemma buildSpanFilters_eq (args : Args) :
    buildSpanFilters args = buildSpanFiltersSpec args := by
  unfold buildSpanFilters buildSpanFiltersSpec
  cases hs : getStr args "service_name" <;>
  cases hm : getStr args "http_method" <;>
  cases hc : getNum args "http_status_code" <;>
  cases hn : getStr args "span_name" <;>
  cases he : getBool args "error_only" <;>
    simp [emitStr, svcNameFilter, httpMethodFilter, statusCodeFilter,
      spanNameFilter, errorOnlyFilter] <;>
    split_ifs <;>
    simp_all

/-- The filter build of `QueryLogsHandler` equals the canonical form. -/
lemma buildLogFilters_eq (args : Args) :
    buildLogFilters args = buildLogFiltersSpec args := by
  unfold buildLogFilters buildLogFiltersSpec
  cases hs : getStr args "service_name" <;>
    simp [emitStr, svcNameFilter] <;> split_ifs <;> simp_all

/-- Prepending an argument under a different key leaves a string argument
read unchanged. -/
lemma getStr_cons_ne (k : String) (v : Json) (args : Args) (key : String)
    (h : ¬k = key) : getStr ((k, v) :: args) key = getStr args key := by
  simp [getStr, lookupField, h]

/-- Prepending an argument under a different key leaves a numeric argument
read unchanged. -/
lemma getNum_cons_ne (k : String) (v : Json) (args : Args) (key : String)
    (h : ¬k = key) : getNum ((k, v) :: args) key = getNum args key := by
  simp [getNum, lookupField, h]

/-- Prepending an argument under a different key leaves a boolean argument
read unchanged. -/
lemma getBool_cons_ne (k : String) (v : Json) (args : Args) (key : String)
    (h : ¬k = key) : getBool ((k, v) :: args) key = getBool args key := by
  simp [getBool, lookupField, h]

/-- C3, counterexample.  The claim states that a zero-valued parameter
emits no filter; `QuerySpansHandler` has no non-zero guard on
`http_status_code`, so `http_status_code = 0` emits the predicate
`http.response.status_code is "0"`. -/
theorem C3_counterexample :
    buildSpanFilters [("http_status_code", Json.num 0)] = [statusCodeFilter 0]
    ∧ statusCodeFilter 0 = { key := "http.response.status_code", operator := "is"
                             value := some { stringValue := none, intValue := some "0"
                                             boolValue := none } }
    ∧ buildSpanFilters [("http_status_code", Json.num 0)] ≠ [] := by
  refine ⟨by decide, by decide, by decide⟩

/-- C3, amended.  The Filter Translator emits exactly one filter per
satisfied parameter, in the canonical order (service name, HTTP method,
HTTP status code, span name, errors-only), where the string parameters
are satisfied when present and non-empty, errors-only when `true`, and
the HTTP status code whenever present as a number — zero included.  The
untranslatable parameters (`min_duration_ms`, `min_severity`,
`body_contains`) never influence the emitted filters. -/
theorem C3_translator :
    (∀ args : Args,
        buildSpanFilters args = buildSpanFiltersSpec args
        ∧ buildLogFilters args = buildLogFiltersSpec args)
    ∧ (∀ (args : Args) (v : Json),
        buildSpanFilters (("min_duration_ms", v) :: args) = buildSpanFilters args
        ∧ buildLogFilters (("min_severity", v) :: args) = buildLogFilters args
        ∧ buildLogFilters (("body_contains", v) :: args) = buildLogFilters args) := by
  constructor
  · exact fun args => ⟨buildSpanFilters_eq args, buildLogFilters_eq args⟩
  · intro args v
    refine ⟨?_, ?_, ?_⟩
    · have h1 := getStr_cons_ne "min_duration_ms" v args "service_name" (by decide)
      have h2 := getStr_cons_ne "min_duration_ms" v args "http_method" (by decide)
      have h3 := getNum_cons_ne "min_duration_ms" v args "http_status_code" (by decide)
      have h4 := getStr_cons_ne "min_duration_ms" v args "span_name" (by decide)
      have h5 := getBool_cons_ne "min_duration_ms" v args "error_only" (by decide)
      simp only [buildSpanFilters, h1, h2, h3, h4, h5]
    · have h1 := getStr_cons_ne "min_severity" v args "service_name" (by decide)
      simp only [buildLogFilters, h1]
    · have h1 := getStr_cons_ne "body_contains" v args "service_name" (by decide)
      simp only [buildLogFilters, h1]

/-- Exactly one of the three value variants of a filter is populated. -/
def oneVariant (f : AttributeFilter) : Bool :=
  match f.value with
  | none => false
  | some v =>
    ((if v.stringValue.isSome then 1 else 0) + (if v.intValue.isSome then 1 else 0)
        + (if v.boolValue.isSome then 1 else 0)) = 1

/-- C4, counterexample.  The claim states every emitted filter carries
operator `"equals"`; the code emits operator `"is"`. -/
theorem C4_counterexample :
    (buildSpanFilters [("service_name", Json.str "cart")]).map AttributeFilter.operator =
      ["is"]
    ∧ "is" ≠ "equals" := by
  refine ⟨by decide, by decide⟩

/-- C4, amended.  Every filter emitted by either translator has operator
`"is"` (not `"equals"`), a non-empty key, and exactly one populated value
variant. -/
theorem C4_filter_invariants :
    ∀ (args : Args) (f : AttributeFilter),
      f ∈ buildSpanFilters args ∨ f ∈ buildLogFilters args →
      f.operator = "is" ∧ f.key ≠ "" ∧ oneVariant f = true := by
  intro args f hf
  have hspan := buildSpanFilters_eq args
  have hlog := buildLogFilters_eq args
  rcases hf with hf | hf
  · rw [hspan] at hf
    simp only [buildSpanFiltersSpec, emitStr, List.mem_append] at hf
    rcases hf with (((hf | hf) | hf) | hf) | hf
    · rcases hx : getStr args "service_name" with _ | s <;> rw [hx] at hf <;>
        simp at hf <;> rcases hf with ⟨-, rfl⟩ <;>
        simp [svcNameFilter, oneVariant]
    · rcases hx : getStr args "http_method" with _ | s <;> rw [hx] at hf <;>
        simp at hf <;> rcases hf with ⟨-, rfl⟩ <;>
        simp [httpMethodFilter, oneVariant]
    · rcases hx : getNum args "http_status_code" with _ | c <;> rw [hx] at hf <;>
        simp at hf <;> subst hf <;>
        simp [statusCodeFilter, oneVariant]
    · rcases hx : getStr args "span_name" with _ | s <;> rw [hx] at hf <;>
        simp at hf <;> rcases hf with ⟨-, rfl⟩ <;>
        simp [spanNameFilter, oneVariant]
    · split at hf <;> simp at hf
      subst hf
      simp [errorOnlyFilter, oneVariant]
  · rw [hlog] at hf
    simp only [buildLogFiltersSpec, emitStr] at hf
    rcases hx : getStr args "service_name" with _ | s <;> rw [hx] at hf <;>
      simp at hf <;> rcases hf with ⟨-, rfl⟩ <;>
      simp [svcNameFilter, oneVariant]

/-- C4, witness: the invariants at a concrete translated filter. -/
theorem C4_witness :
    (svcNameFilter "web" ∈ buildSpanFilters [("service_name", Json.str "web")]
      ∨ svcNameFilter "web" ∈ buildLogFilters [("service_name", Json.str "web")])
    ∧ ((svcNameFilter "web").operator = "is" ∧ (svcNameFilter "web").key ≠ ""
        ∧ oneVariant (svcNameFilter "web") = true) :=
  have hmem : svcNameFilter "web" ∈ buildSpanFilters [("service_name", Json.str "web")]
      ∨ svcNameFilter "web" ∈ buildLogFilters [("service_name", Json.str "web")] :=
    Or.inl (by decide)
  ⟨hmem, C4_filter_invariants _ _ hmem⟩

/-! ### Service-name extraction (C5) -/

/-- The attribute loop returns the first productive entry's value. -/
lemma serviceNameLoop_eq_findSome (attrs : List Json) :
    serviceNameLoop attrs = (attrs.findSome? attrServiceName).getD "" := by
  induction attrs with
  | nil => rfl
  | cons attr rest ih =>
    simp only [serviceNameLoop, List.findSome?]
    cases h : attrServiceName attr with
    | none => simpa using ih
    | some s => simp

/-- A loop whose leading entries are all unproductive lands on the first
productive entry. -/
lemma serviceNameLoop_first_hit (pre : List Json) (a : Json) (post : List Json)
    (s : String) (hpre : ∀ b ∈ pre, attrServiceName b = none)
    (ha : attrServiceName a = some s) :
    serviceNameLoop (pre ++ a :: post) = s := by
  induction pre with
  | nil => simp [serviceNameLoop, ha]
  | cons b rest ih =>
    have hb : attrServiceName b = none := hpre b (by simp)
    simp only [List.cons_append, serviceNameLoop, hb]
    exact ih fun x hx => hpre x (by simp [hx])

/-- First malformed `service.name` attribute entry of the counterexample:
its key is `service.name` but its value is a number, so the scan yields
nothing for it and moves on. -/
def c5attrA : Json :=
  .obj [("key", .str "service.name"), ("value", .num 42)]

/-- Second `service.name` attribute entry of the counterexample, fully
well-formed. -/
def c5attrB : Json :=
  .obj [("key", .str "service.name"), ("value", .obj [("stringValue", .str "backend")])]

/-- The counterexample's resource group: two `service.name` entries, the
first malformed. -/
def c5rsMap : List (String × Json) :=
  [("resource", .obj [("attributes", .arr [c5attrA, c5attrB])])]

/-- C5, counterexample.  The claim states that scanning stops at the first
attribute entry whose key equals `service.name`, so a later entry can
never be used.  Here the first such entry is malformed (its value is not
an object with a string `stringValue`), the loop continues past it, and
the service name comes from the second `service.name` entry. -/
theorem C5_counterexample :
    lookupField [("key", Json.str "service.name"), ("value", Json.num 42)] "key" =
      some (Json.str "service.name")
    ∧ attrServiceName c5attrA = none
    ∧ extractServiceName c5rsMap = "backend" := by
  refine ⟨rfl, rfl, rfl⟩

/-- C5, amended.  The service name is the value of the first *productive*
attribute entry — one whose key equals `service.name` and whose value is
an object carrying a string `stringValue`; entries with that key but a
malformed value are skipped and a later entry can supply the name.
Absence of any productive entry (or of the attribute list itself) yields
`""`. -/
theorem C5_service_name_first_match :
    (∀ rsMap : List (String × Json),
        extractServiceName rsMap =
          match resourceAttrs rsMap with
          | none => ""
          | some attrs => (attrs.findSome? attrServiceName).getD "")
    ∧ (∀ (rsMap : List (String × Json)) (pre : List Json) (a : Json)
          (post : List Json) (s : String),
        resourceAttrs rsMap = some (pre ++ a :: post) →
        (∀ b ∈ pre, attrServiceName b = none) →
        attrServiceName a = some s →
        extractServiceName rsMap = s) := by
  have hmain : ∀ rsMap : List (String × Json),
      extractServiceName rsMap =
        match resourceAttrs rsMap with
        | none => ""
        | some attrs => (attrs.findSome? attrServiceName).getD "" := by
    intro rsMap
    unfold extractServiceName resourceAttrs
    cases h1 : (lookupField rsMap "resource").bind Json.asObj? with
    | none => simp
    | some resource =>
      cases h2 : (lookupField resource "attributes").bind Json.asArr? with
      | none => simp [h2]
      | some attrs => simp [h2, serviceNameLoop_eq_findSome]
  refine ⟨hmain, ?_⟩
  intro rsMap pre a post s hattrs hpre ha
  have h : extractServiceName rsMap = ((pre ++ a :: post).findSome? attrServiceName).getD "" := by
    rw [hmain rsMap, hattrs]
  rw [h, ← serviceNameLoop_eq_findSome]
  exact serviceNameLoop_first_hit pre a post s hpre ha

/-- The witness resource group: a foreign attribute entry followed by a
well-formed `service.name` entry. -/
def c5wOther : Json :=
  .obj [("key", .str "telemetry.sdk.name"), ("value", .obj [("stringValue", .str "otel")])]

/-- The witness's productive entry. -/
def c5wGood : Json :=
  .obj [("key", .str "service.name"), ("value", .obj [("stringValue", .str "api")])]

/-- The witness resource group map. -/
def c5wMap : List (String × Json) :=
  [("resource", .obj [("attributes", .arr [c5wOther, c5wGood])])]

/-- C5, witness: the amended theorem applied to a concrete resource group
whose first attribute entry is foreign. -/
theorem C5_witness :
    resourceAttrs c5wMap = some ([c5wOther] ++ c5wGood :: [])
    ∧ attrServiceName c5wOther = none
    ∧ attrServiceName c5wGood = some "api"
    ∧ extractServiceName c5wMap = "api" := by
  refine ⟨rfl, rfl, rfl, ?_⟩
  exact C5_service_name_first_match.2 c5wMap [c5wOther] c5wGood [] "api" rfl
    (by intro b hb; simp only [List.mem_singleton] at hb; subst hb; rfl) rfl

/-! ### Time window policy (C6) -/

/-- C6, counterexample.  The claim states that an in-range
`time_range_minutes` yields a window whose duration equals the requested
number of minutes; the code converts the `float64` argument with Go's
`int(...)`, so a fractional request of 30.5 minutes yields a 30-minute
window. -/
theorem C6_counterexample :
    calcMinutes [("time_range_minutes", Json.num (mkRat 61 2))] = 30
    ∧ ¬((30 : ℚ) = mkRat 61 2) := by
  refine ⟨by decide, by norm_num⟩

/-- C6, amended.  The window is `[now - minutes, now]` with `now` sampled
once; minutes default to 60 when the argument is absent, mistyped, or not
positive, and otherwise equal the requested value truncated toward zero,
capped at 1440; the computation is total (no error path). -/
theorem C6_time_window :
    ∀ (now : Int) (args : Args) (m : ℚ),
      (getNum args "time_range_minutes" = none → calcMinutes args = 60)
      ∧ (getNum args "time_range_minutes" = some m → ¬m > 0 → calcMinutes args = 60)
      ∧ (getNum args "time_range_minutes" = some m → m > 0 → truncRat m > 1440 →
          calcMinutes args = 1440)
      ∧ (getNum args "time_range_minutes" = some m → m > 0 → ¬truncRat m > 1440 →
          calcMinutes args = truncRat m)
      ∧ (queryWindow now args).toTime - (queryWindow now args).fromTime = calcMinutes args
      ∧ (queryWindow now args).toTime = now := by
  intro now args m
  refine ⟨?_, ?_, ?_, ?_, ?_, rfl⟩
  · intro h; simp [calcMinutes, h]
  · intro h hm; simp [calcMinutes, h, hm]
  · intro h hm hcap; simp [calcMinutes, h, hm, hcap]
  · intro h hm hcap; simp [calcMinutes, h, hm, hcap]
  · simp only [queryWindow]
    omega

/-- C6, witness: the amended theorem at a concrete in-range request. -/
theorem C6_witness :
    getNum [("time_range_minutes", Json.num 90)] "time_range_minutes" = some 90
    ∧ (90 : ℚ) > 0
    ∧ ¬truncRat 90 > 1440
    ∧ calcMinutes [("time_range_minutes", Json.num 90)] = truncRat 90
    ∧ truncRat 90 = 90 :=
  ⟨by decide, by norm_num, by decide,
    (C6_time_window 0 [("time_range_minutes", Json.num 90)] 90).2.2.2.1
      (by decide) (by norm_num) (by decide),
    by decide⟩

/-! ### Log post-filters (C7) -/

/-- The severity filter never reorders: its output is a sublist of its
input. -/
lemma severityFilter_sublist (args : Args) (logs : List FlatLog) :
    (severityFilter args logs).Sublist logs := by
  unfold severityFilter
  cases getStr args "min_severity" with
  | none => exact List.Sublist.refl _
  | some ms =>
    dsimp only
    split_ifs
    · exact List.filter_sublist _
    · exact List.Sublist.refl _

/-- The body filter never reorders: its output is a sublist of its
input. -/
lemma bodyFilter_sublist (args : Args) (logs : List FlatLog) :
    (bodyFilter args logs).Sublist logs := by
  unfold bodyFilter
  cases getStr args "body_contains" with
  | none => exact List.Sublist.refl _
  | some b =>
    dsimp only
    split_ifs
    · exact List.filter_sublist _
    · exact List.Sublist.refl _

/-- Truncation yields a sublist. -/
lemma applyLimit_sublist (limit : Int) (logs : List FlatLog) :
    (applyLimit limit logs).Sublist logs := by
  unfold applyLimit
  split_ifs
  · exact List.take_sublist _ _
  · exact List.Sublist.refl _

/-- Truncation keeps an initial segment: the input is the output followed
by the discarded remainder. -/
lemma applyLimit_initial (limit : Int) (logs : List FlatLog) :
    ∃ rest, logs = applyLimit limit logs ++ rest := by
  unfold applyLimit
  split_ifs
  · exact ⟨logs.drop limit.toNat, (List.take_append_drop _ _).symm⟩
  · exact ⟨[], by simp⟩

/-- C7.  When `min_severity` is one of the six named levels the severity
filter keeps exactly the records with `severityNumber` at least the
level's rank (TRACE 1, DEBUG 5, INFO 9, WARN 13, ERROR 17, FATAL 21);
when `body_contains` is non-empty the body filter keeps exactly the
records whose body contains it case-insensitively; the severity filter
runs first, every stage selects a sublist of its input in the original
order, and the final truncation keeps an initial segment of the filtered
sequence. -/
theorem C7_logs_postfilter :
    ∀ (args : Args) (data : Json) (ms b : String),
      (getStr args "min_severity" = some ms →
          ms ∈ (["TRACE", "DEBUG", "INFO", "WARN", "ERROR", "FATAL"] : List String) →
          severityFilter args (flattenLogsResponse data) =
            (flattenLogsResponse data).filter
              (fun log => decide (log.severityNumber ≥ severityOrder ms)))
      ∧ (severityOrder "TRACE" = 1 ∧ severityOrder "DEBUG" = 5 ∧ severityOrder "INFO" = 9
          ∧ severityOrder "WARN" = 13 ∧ severityOrder "ERROR" = 17
          ∧ severityOrder "FATAL" = 21)
      ∧ (getStr args "body_contains" = some b → b ≠ "" →
          bodyFilter args (severityFilter args (flattenLogsResponse data)) =
            (severityFilter args (flattenLogsResponse data)).filter
              (fun log => containsCI log.body b))
      ∧ (queryLogsEnvelope args data).logs.Sublist (flattenLogsResponse data)
      ∧ (∃ rest,
          bodyFilter args (severityFilter args (flattenLogsResponse data)) =
            (queryLogsEnvelope args data).logs ++ rest) := by
  intro args data ms b
  refine ⟨?_, by decide, ?_, ?_, ?_⟩
  · intro h hms
    have hne : ms ≠ "" := by
      rintro rfl
      simp at hms
    simp [severityFilter, h, hne]
  · intro h hb
    simp [bodyFilter, h, hb]
  · show (applyLimit _ _).Sublist _
    exact ((applyLimit_sublist _ _).trans (bodyFilter_sublist _ _)).trans
      (severityFilter_sublist _ _)
  · exact applyLimit_initial _ _

/-- A concrete log payload for the C7 witness: one INFO record (body
"all ok") and one ERROR record (body "FAILURE: disk"). -/
def c7data : Json :=
  .obj [("resourceLogs", .arr [
    .obj [("resource", .obj [("attributes", .arr [
             .obj [("key", .str "service.name"),
                   ("value", .obj [("stringValue", .str "cart")])]])]),
          ("scopeLogs", .arr [
            .obj [("logRecords", .arr [
              .obj [("severityText", .str "INFO"), ("severityNumber", .num 9),
                    ("body", .obj [("stringValue", .str "all ok")])],
              .obj [("severityText", .str "ERROR"), ("severityNumber", .num 17),
                    ("body", .obj [("stringValue", .str "FAILURE: disk")])]])]])]])]

/-- The C7 witness arguments. -/
def c7args : Args :=
  [("min_severity", Json.str "ERROR"), ("body_contains", Json.str "fail")]

/-- C7, witness: the theorem's severity and body conjuncts at a concrete
query, hypotheses discharged at `min_severity = "ERROR"`,
`body_contains = "fail"`. -/
theorem C7_witness :
    (severityFilter c7args (flattenLogsResponse c7data) =
        (flattenLogsResponse c7data).filter
          (fun log => decide (log.severityNumber ≥ severityOrder "ERROR")))
    ∧ (bodyFilter c7args (severityFilter c7args (flattenLogsResponse c7data)) =
        (severityFilter c7args (flattenLogsResponse c7data)).filter
          (fun log => containsCI log.body "fail")) :=
  ⟨(C7_logs_postfilter c7args c7data "ERROR" "fail").1 rfl (by decide),
   (C7_logs_postfilter c7args c7data "ERROR" "fail").2.2.1 rfl (by decide)⟩

/-! ### Limiting (C2) -/

/-- Truncation toward zero of a positive rational is non-negative. -/
lemma truncRat_nonneg {q : ℚ} (h : 0 < q) : 0 ≤ truncRat q := by
  unfold truncRat
  have hnum : 0 ≤ q.num := le_of_lt (Rat.num_pos.mpr h)
  have hden : (0 : Int) ≤ (q.den : Int) := Int.natCast_nonneg _
  exact Int.tdiv_nonneg hnum hden

/-- The clamped log limit lies in `[0, 500]`. -/
lemma calcLogLimit_bounds (args : Args) :
    0 ≤ calcLogLimit args ∧ calcLogLimit args ≤ 500 := by
  unfold calcLogLimit
  cases getNum args "limit" with
  | none => dsimp only; omega
  | some l =>
    dsimp only
    split_ifs with hl hcap
    · omega
    · have := truncRat_nonneg hl
      omega
    · omega

/-- The clamped span limit lies in `[0, 200]`. -/
lemma calcSpanLimit_bounds (args : Args) :
    0 ≤ calcSpanLimit args ∧ calcSpanLimit args ≤ 200 := by
  unfold calcSpanLimit
  cases getNum args "limit" with
  | none => dsimp only; omega
  | some l =>
    dsimp only
    split_ifs with hl hcap
    · omega
    · have := truncRat_nonneg hl
      omega
    · omega

/-- Truncation bounds the output length by the (non-negative) limit. -/
lemma applyLimit_length_le (limit : Int) (h : 0 ≤ limit) (logs : List FlatLog) :
    ((applyLimit limit logs).length : Int) ≤ limit := by
  unfold applyLimit
  split_ifs with hlen
  · have : (logs.take limit.toNat).length = min limit.toNat logs.length := by
      simp
    rw [this]
    omega
  · omega

/-- C2, counterexample span leaf: the empty object (every field zero). -/
def c2span : Json := .obj []

/-- C2, counterexample payload: one resource group, one scope group,
201 leaf spans. -/
def c2data : Json :=
  .obj [("resourceSpans", .arr [
    .obj [("scopeSpans", .arr [.obj [("spans", .arr (List.replicate 201 c2span))]])]])]

/-- C2, counterexample arguments: `limit = 10000`. -/
def c2args : Args := [("limit", Json.num 10000)]

set_option maxRecDepth 20000 in
/-- C2, counterexample.  The claim states the span envelope holds at most
200 records even when the upstream payload holds more;
`QuerySpansHandler` never truncates client-side (the limit is only the
upstream pagination hint), so a 201-record payload yields a 201-record
envelope at `limit = 10000`. -/
theorem C2_counterexample :
    calcSpanLimit c2args = 200
    ∧ (querySpansEnvelope c2args c2data).count = 201
    ∧ ¬((querySpansEnvelope c2args c2data).count ≤ 200) := by
  refine ⟨by decide, by decide, by decide⟩

/-- C2, amended.  The final-limit truncation exists only in the log
pipeline: the log envelope is the post-filtered sequence truncated to the
clamped limit (at most 500 records); the span envelope is exactly the
duration-filtered flattened sequence with no truncation, the clamped
limit (at most 200) being sent upstream as the pagination hint only. -/
theorem C2_limit :
    ∀ (args : Args) (data : Json),
      (querySpansEnvelope args data).spans =
        minDurationFilter args (flattenSpansResponse data)
      ∧ (queryLogsEnvelope args data).logs =
          applyLimit (calcLogLimit args)
            (bodyFilter args (severityFilter args (flattenLogsResponse data)))
      ∧ ((queryLogsEnvelope args data).count : Int) ≤ calcLogLimit args
      ∧ (queryLogsEnvelope args data).count ≤ 500
      ∧ spansPaginationLimit args = calcSpanLimit args
      ∧ calcSpanLimit args ≤ 200
      ∧ calcLogLimit args ≤ 500 := by
  intro args data
  have hlogBounds := calcLogLimit_bounds args
  have hcount : ((queryLogsEnvelope args data).count : Int) ≤ calcLogLimit args :=
    applyLimit_length_le (calcLogLimit args) hlogBounds.1 _
  refine ⟨rfl, rfl, hcount, ?_, rfl, (calcSpanLimit_bounds args).2, hlogBounds.2⟩
  omega

/-! ### Flattening totality and shape leniency (C8) -/

/-- A span payload whose single resource group has zero scope groups. -/
def c8spansEmptyScopes : Json :=
  .obj [("resourceSpans", .arr [.obj [("scopeSpans", .arr [])]])]

/-- A log payload whose single resource group has zero scope groups. -/
def c8logsEmptyScopes : Json :=
  .obj [("resourceLogs", .arr [.obj [("scopeLogs", .arr [])]])]

/-- A leaf span with a mistyped `name` (a number), a mistyped
`endTimeUnixNano` (a number), a mistyped `status.code` (a string), and
well-typed `traceId` and `status.message`. -/
def c8span : Json :=
  .obj [("name", .num 5), ("traceId", .str "t1"),
        ("startTimeUnixNano", .str "1000"), ("endTimeUnixNano", .num 2000),
        ("status", .obj [("code", .str "2"), ("message", .str "boom")])]

/-- The payload wrapping `c8span` (no `resource` field at all). -/
def c8spanPayload : Json :=
  .obj [("resourceSpans", .arr [
    .obj [("scopeSpans", .arr [.obj [("spans", .arr [c8span])]])]])]

/-- The record `c8span` flattens to: every mistyped or missing field at
its zero value, the well-typed fields extracted. -/
def c8expectedSpan : FlatSpan :=
  { traceId := "t1", spanId := "", parentSpanId := "", name := ""
    serviceName := "", durationMs := 0, startTimeNano := none
    endTimeNano := none, statusCode := 0, statusMessage := "boom"
    attributes := [] }

/-- A leaf log record with an unparsable `timeUnixNano` string, a mistyped
`severityText` (a number), a mistyped `severityNumber` (a string), and
well-typed `body` and `traceId`. -/
def c8log : Json :=
  .obj [("timeUnixNano", .str "12x"), ("observedTimeUnixNano", .str "555"),
        ("severityText", .num 3), ("severityNumber", .str "17"),
        ("body", .obj [("stringValue", .str "hello")]), ("traceId", .str "tr")]

/-- The payload wrapping `c8log`. -/
def c8logPayload : Json :=
  .obj [("resourceLogs", .arr [
    .obj [("scopeLogs", .arr [.obj [("logRecords", .arr [c8log])]])]])]

/-- The record `c8log` flattens to. -/
def c8expectedLog : FlatLog :=
  { timestampNano := none, serviceName := "", severityText := ""
    severityNumber := 0, body := "hello", traceId := "tr", spanId := ""
    attributes := [] }

/-- C8.  Flattening is total and shape-lenient: a non-object payload, a
missing or mistyped container, a payload with zero resource groups, and a
resource group with zero scope groups all yield the empty record list,
never an error; a mistyped or absent leaf field yields that field's zero
value while the remaining fields are still extracted. -/
theorem C8_flatten_lenient :
    (∀ j : Json, j.asObj? = none →
        flattenSpansResponse j = [] ∧ flattenLogsResponse j = [])
    ∧ (∀ m : List (String × Json),
        (lookupField m "resourceSpans").bind Json.asArr? = none →
        flattenSpansResponse (.obj m) = [])
    ∧ (∀ m : List (String × Json),
        (lookupField m "resourceLogs").bind Json.asArr? = none →
        flattenLogsResponse (.obj m) = [])
    ∧ flattenSpansResponse (.obj [("resourceSpans", .arr [])]) = []
    ∧ flattenLogsResponse (.obj [("resourceLogs", .arr [])]) = []
    ∧ flattenSpansResponse c8spansEmptyScopes = []
    ∧ flattenLogsResponse c8logsEmptyScopes = []
    ∧ flattenSpansResponse c8spanPayload = [c8expectedSpan]
    ∧ flattenLogsResponse c8logPayload = [c8expectedLog] := by
  refine ⟨?_, ?_, ?_, rfl, rfl, rfl, rfl, ?_, ?_⟩
  · intro j h
    exact ⟨by simp only [flattenSpansResponse, h], by simp only [flattenLogsResponse, h]⟩
  · intro m h
    simp only [flattenSpansResponse, Json.asObj?, h]
  · intro m h
    simp only [flattenLogsResponse, Json.asObj?, h]
  · rfl
  · rfl

/-- C8, witness: leniency at a concrete non-object payload. -/
theorem C8_witness :
    Json.asStr? (Json.str "oops") = some "oops"
    ∧ Json.asObj? (Json.str "oops") = none
    ∧ flattenSpansResponse (Json.str "oops") = []
    ∧ flattenLogsResponse (Json.str "oops") = [] :=
  ⟨rfl, rfl, (C8_flatten_lenient.1 (Json.str "oops") rfl).1,
    (C8_flatten_lenient.1 (Json.str "oops") rfl).2⟩

/-! ### Transport error surfacing (C9) -/

/-- C9, counterexample.  The claim states that a body that cannot be
unmarshaled always surfaces a transport error; the code falls back to the
raw body string, and on a 2xx status returns a success result built from
it. -/
theorem C9_counterexample :
    (processResponse 200 "200 OK" "not json" none).success = true
    ∧ (processResponse 200 "200 OK" "not json" none).error = none
    ∧ (processResponse 200 "200 OK" "not json" none).data = Json.str "not json" := by
  refine ⟨rfl, rfl, rfl⟩

/-- C9, amended.  Only the HTTP status decides the outcome: a status of
400 or above yields an error result carrying the original status code,
the status text, and the best-effort detail extracted from the (parsed or
raw-string) payload; any status below 400 yields a success result — even
when the body could not be unmarshaled, in which case the raw body string
is the payload. -/
theorem C9_status_gate :
    ∀ (sc : Nat) (title raw : String) (parsed : Option Json),
      (400 ≤ sc →
          (processResponse sc title raw parsed).success = false
          ∧ (processResponse sc title raw parsed).error =
              some { statusCode := sc, title := title
                     detail := extractErrorDetail (responseBody raw parsed) }
          ∧ (processResponse sc title raw parsed).data = responseBody raw parsed)
      ∧ (sc < 400 →
          (processResponse sc title raw parsed).success = true
          ∧ (processResponse sc title raw parsed).error = none
          ∧ (processResponse sc title raw parsed).data = responseBody raw parsed) := by
  intro sc title raw parsed
  constructor
  · intro h
    simp [processResponse, h]
  · intro h
    have h' : ¬400 ≤ sc := by omega
    simp [processResponse, h']

/-- C9, witness: the amended theorem at a concrete 422 response. -/
theorem C9_witness :
    (400 ≤ 422)
    ∧ (processResponse 422 "422 Unprocessable Entity" "{}" (some (Json.obj []))).success =
        false
    ∧ (processResponse 422 "422 Unprocessable Entity" "{}" (some (Json.obj []))).error =
        some { statusCode := 422, title := "422 Unprocessable Entity"
               detail := extractErrorDetail (responseBody "{}" (some (Json.obj []))) } :=
  ⟨by decide,
    ((C9_status_gate 422 "422 Unprocessable Entity" "{}" (some (Json.obj []))).1
      (by decide)).1,
    ((C9_status_gate 422 "422 Unprocessable Entity" "{}" (some (Json.obj []))).1
      (by decide)).2.1⟩

/-! ### Unknown severity level (C10) -/

/-- A flat log record with a negative severity number. -/
def c10log : FlatLog :=
  { timestampNano := none, serviceName := "", severityText := ""
    severityNumber := -1, body := "", traceId := "", spanId := ""
    attributes := [] }

/-- C10, counterexample arguments: `min_severity` supplied as the empty
string — not one of the six named levels. -/
def c10args : Args := [("min_severity", Json.str "")]

/-- C10, counterexample.  The claim covers every `min_severity` string
outside the six named levels; for the empty string the code skips the
severity filter entirely, so a record with negative `severityNumber` is
kept, though the claim requires exactly the records with
`severityNumber ≥ 0`. -/
theorem C10_counterexample :
    getStr c10args "min_severity" = some ""
    ∧ ¬("" ∈ (["TRACE", "DEBUG", "INFO", "WARN", "ERROR", "FATAL"] : List String))
    ∧ severityFilter c10args [c10log] = [c10log]
    ∧ ¬(c10log.severityNumber ≥ 0) := by
  refine ⟨rfl, by decide, rfl, by decide⟩

/-- C10, amended.  For every *non-empty* `min_severity` string outside the
six named levels, the rank used is the Go map's zero value 0, so the
filter keeps exactly the records with non-negative `severityNumber`; the
call is never rejected, and on records with non-negative severity it
behaves as if no severity filter had been supplied. -/
theorem C10_unknown_severity :
    ∀ (args : Args) (logs : List FlatLog) (ms : String),
      getStr args "min_severity" = some ms →
      ms ∉ (["TRACE", "DEBUG", "INFO", "WARN", "ERROR", "FATAL"] : List String) →
      ms ≠ "" →
      severityOrder ms = 0
      ∧ severityFilter args logs =
          logs.filter (fun log => decide (log.severityNumber ≥ 0))
      ∧ ((∀ log ∈ logs, 0 ≤ log.severityNumber) → severityFilter args logs = logs) := by
  intro args logs ms h hms hne
  have h1 : ms ≠ "TRACE" := by rintro rfl; exact hms (by decide)
  have h2 : ms ≠ "DEBUG" := by rintro rfl; exact hms (by decide)
  have h3 : ms ≠ "INFO" := by rintro rfl; exact hms (by decide)
  have h4 : ms ≠ "WARN" := by rintro rfl; exact hms (by decide)
  have h5 : ms ≠ "ERROR" := by rintro rfl; exact hms (by decide)
  have h6 : ms ≠ "FATAL" := by rintro rfl; exact hms (by decide)
  have h0 : severityOrder ms = 0 := by
    simp [severityOrder, h1, h2, h3, h4, h5, h6]
  have hfilter : severityFilter args logs =
      logs.filter (fun log => decide (log.severityNumber ≥ 0)) := by
    simp only [severityFilter, h]
    rw [if_pos hne]
    simp only [h0]
  refine ⟨h0, hfilter, ?_⟩
  intro hall
  rw [hfilter]
  exact List.filter_eq_self.mpr fun log hlog => by
    simpa using hall log hlog

/-- The C10 witness records: severities 9 and 0. -/
def c10wlogs : List FlatLog :=
  [{ timestampNano := none, serviceName := "", severityText := "INFO"
     severityNumber := 9, body := "a", traceId := "", spanId := ""
     attributes := [] },
   { timestampNano := none, serviceName := "", severityText := ""
     severityNumber := 0, body := "b", traceId := "", spanId := ""
     attributes := [] }]

/-- The C10 witness arguments: the unknown level `"WARNING"`. -/
def c10wargs : Args := [("min_severity", Json.str "WARNING")]

/-- C10, witness: the amended theorem at `min_severity = "WARNING"` over
two records with non-negative severities — the filter keeps both. -/
theorem C10_witness :
    severityOrder "WARNING" = 0
    ∧ severityFilter c10wargs c10wlogs = c10wlogs :=
  have E := C10_unknown_severity c10wargs c10wlogs "WARNING" rfl (by decide) (by decide)
  ⟨E.1, E.2.2 (by decide)⟩

end Dash0
